import Mathlib

/-!
Shallow embedding of the filtering, searching and sorting core of
react-mui-dynamic-data-table (src/utils/datatable.ts,
src/components/DataTable/DataTable.tsx).  JavaScript runtime values are
modelled by the inductive `DValue`; records are association lists;
JS objects with optional fields are structures whose fields are wrapped
in `Option` so that the field-presence probing of the source
(for instance the filter-input shape guards) is expressible.
-/

namespace DT

/-- JavaScript runtime values that can appear in a data-table record:
`undefined`, `null`, booleans, numbers (integral in this model),
strings, `Date` objects (carried as their millisecond timestamp),
plain objects, arrays, and React elements (opaque). -/
inductive DValue where
  | vundefined
  | vnull
  | vbool (b : Bool)
  | vnum (n : Int)
  | vstr (s : String)
  | vdate (t : Int)
  | vobj (fields : List (String × DValue))
  | varr (elems : List DValue)
  | velem
deriving Inhabited

open DValue

/-- Result of the JavaScript `typeof` operator on a `DValue`. -/
def typeofV : DValue → String
  | .vundefined => "undefined"
  | .vnull => "object"
  | .vbool _ => "boolean"
  | .vnum _ => "number"
  | .vstr _ => "string"
  | .vdate _ => "object"
  | .vobj _ => "object"
  | .varr _ => "object"
  | .velem => "object"

/-- Whether a value is `null` or `undefined`: the values absorbed by the
JavaScript nullish-coalescing operator. -/
def isNullish : DValue → Bool
  | .vundefined => true
  | .vnull => true
  | _ => false

/-- Whether a value is a `Date` object (JavaScript `instanceof Date`). -/
def isDateV : DValue → Bool
  | .vdate _ => true
  | _ => false

/-- Whether a value is a React element (`React.isValidElement`). -/
def isElemV : DValue → Bool
  | .velem => true
  | _ => false

/-- Whether a value is an array (`Array.isArray`). -/
def isArrV : DValue → Bool
  | .varr _ => true
  | _ => false

/-- Whether a value is exactly `null`. -/
def isVNull : DValue → Bool
  | .vnull => true
  | _ => false

/-- Whether a value is the empty string. -/
def isEmptyStrV : DValue → Bool
  | .vstr s => s = ""
  | _ => false

/-- Models JavaScript `Date#toString`: an injective function of the
timestamp.  The exact rendered text is immaterial to every claim. -/
def dateToString (t : Int) : String := "Date " ++ toString t

mutual

/-- Models JavaScript `String(x)` / `x.toString()` on data-table values. -/
def jsToString : DValue → String
  | .vundefined => "undefined"
  | .vnull => "null"
  | .vbool b => if b then "true" else "false"
  | .vnum n => toString n
  | .vstr s => s
  | .vdate t => dateToString t
  | .vobj _ => "[object Object]"
  | .varr xs => String.intercalate "," (jsToStringList xs)
  | .velem => "[object Object]"

/-- Elementwise stringification used by JavaScript `Array#toString`
(`null` and `undefined` render as the empty string inside arrays). -/
def jsToStringList : List DValue → List String
  | [] => []
  | x :: xs =>
    (match x with
      | .vnull => ""
      | .vundefined => ""
      | _ => jsToString x) :: jsToStringList xs

end

/-- JavaScript strict equality `===` on the values that occur as filter
selections.  Primitives compare by value; objects, arrays, dates and
elements compare by reference, and distinct `DValue` literals stand for
distinct references, so they compare unequal here. -/
def jsStrictEq : DValue → DValue → Bool
  | .vnull, .vnull => true
  | .vundefined, .vundefined => true
  | .vbool a, .vbool b => a == b
  | .vnum a, .vnum b => a == b
  | .vstr a, .vstr b => a == b
  | _, _ => false

/-- Three-way comparison of character lists, the order underlying the
model of `String.prototype.localeCompare`. -/
def cmpChars : List Char → List Char → Int
  | [], [] => 0
  | [], _ :: _ => -1
  | _ :: _, [] => 1
  | a :: as, b :: bs =>
    if a.toNat < b.toNat then -1
    else if b.toNat < a.toNat then 1
    else cmpChars as bs

/-- Models `a.localeCompare(b)`: a total three-way string comparison.
The model uses code-point order; every claim needs only that it is a
deterministic total order with antisymmetric sign. -/
def localeCompare (a b : String) : Int := cmpChars a.data b.data

/-- A data-table record (`DataTableRecord`): a JS object, modelled as an
association list from field names to values. -/
abbrev Row := List (String × DValue)

/-- JavaScript property read `row[k]`: `undefined` when the key is absent. -/
def rowGet (row : Row) (k : String) : DValue :=
  ((row.find? (fun p => p.1 = k)).map Prod.snd).getD .vundefined

/-- Keyed lookup in an object modelled as an association list
(`obj[k]`, yielding `none` for an absent key). -/
def lookupF {α : Type} (fs : List (String × α)) (k : String) : Option α :=
  (fs.find? (fun p => p.1 = k)).map Prod.snd

/-- JavaScript keyed assignment `obj[k] = v` on an object modelled as an
association list: replaces the value at an existing key in place,
otherwise appends the new key (insertion order, as `Object.keys`). -/
def objSet {α : Type} (fs : List (String × α)) (k : String) (v : α) :
    List (String × α) :=
  if fs.any (fun p => p.1 = k) then
    fs.map (fun p => if p.1 = k then (k, v) else p)
  else fs ++ [(k, v)]

/-- RenderOptions from src/models/datatable.ts (optional fields). -/
structure RenderOptions where
  disableTable : Option Bool := none
  disableFilterModal : Option Bool := none

/-- Truthiness of an optional boolean field reached through `?.`
(absent and `false` are both falsy). -/
def truthyOptB : Option Bool → Bool
  | some b => b
  | none => false

/-- A dropdown/checkbox item (`DropdownItem` / `CheckboxItem`).  The
`checked` field is present only on checkbox items, hence the `Option`:
`none` models the absent field. -/
structure JsItem where
  value : String
  node : DValue
  checked : Option Bool := none

/-- A filter input object, `CheckboxInput | DropdownInput | RangeInput`.
Every field is optional so that field presence — which the source
probes with the `in` operator — is part of the state. -/
structure JsInput where
  items : Option (List JsItem) := none
  selected : Option DValue := none
  min : Option (Option Int) := none
  max : Option (Option Int) := none
  rendering : Option (Option RenderOptions) := none

/-- Shape guard `isCheckboxInput` from src/utils/datatable.ts:
`'items' in object && !('selected' in object)`. -/
def isCheckboxInput (i : JsInput) : Bool := i.items.isSome && !i.selected.isSome

/-- Shape guard `isDropdownInput`: `'items' in object && 'selected' in object`. -/
def isDropdownInput (i : JsInput) : Bool := i.items.isSome && i.selected.isSome

/-- Shape guard `isRangeInput`: `'min' in object && 'max' in object`. -/
def isRangeInput (i : JsInput) : Bool := i.min.isSome && i.max.isSome

/-- A column descriptor (`DataTableColumn`).  Extractors keep their
declared TypeScript types: `getSearchEntry` and `getFilterIdentifier`
return strings, `getRenderedEntry` returns a renderable value. -/
structure Column where
  name : String
  title : Option String := none
  style : Option String := none
  canFilter : Option Bool := none
  rendering : Option RenderOptions := none
  getRenderedEntry : Option (DValue → DValue) := none
  getSearchEntry : Option (DValue → String) := none
  getFilterIdentifier : Option (DValue → String) := none
  sort : Option (DValue → DValue → Int) := none

/-- One entry of the filter model: the per-column record stored in
`Filters<T>` (style, input, and the optional extractors). -/
structure FilterEntry where
  style : String
  input : JsInput
  getRenderedEntry : Option (DValue → DValue) := none
  getSearchEntry : Option (DValue → String) := none
  getFilterIdentifier : Option (DValue → String) := none

/-- A filter model `Filters<T>`: a JS object from column name to entry. -/
abbrev Filters := List (String × FilterEntry)

/-- First phase of `createFilters`: the entry created for one column
before the dataset scan (style-dispatched empty input). -/
def phase1Entry (c : Column) : FilterEntry :=
  let style := c.style.getD "default"
  if style = "date" ∨ style = "datetime" ∨ style = "time" ∨ style = "number" then
    { style := style
      input := { min := some none, max := some none }
      getRenderedEntry := c.getRenderedEntry
      getSearchEntry := c.getSearchEntry
      getFilterIdentifier := c.getFilterIdentifier }
  else if style = "select" then
    { style := style
      input := { items := some [], selected := some .vnull,
                 rendering := some c.rendering }
      getRenderedEntry := c.getRenderedEntry
      getSearchEntry := c.getSearchEntry
      getFilterIdentifier := c.getFilterIdentifier }
  else
    { style := style
      input := { items := some [], rendering := some c.rendering }
      getRenderedEntry := c.getRenderedEntry
      getSearchEntry := c.getSearchEntry
      getFilterIdentifier := c.getFilterIdentifier }

/-- First phase of `createFilters`: one entry per supplied column,
keyed by the stringified column name. -/
def phase1 (cols : List Column) : Filters :=
  cols.foldl (fun fs c => objSet fs c.name (phase1Entry c)) []

/-- The rendered node of one option item in `createFilters`:
`rendering?.disableFilterModal ? getSearchEntry?.(entry) ?? entry
: getRenderedEntry?.(entry) ?? entry`. -/
def pushNode (e : FilterEntry) (entry : DValue) : DValue :=
  if truthyOptB ((e.input.rendering.getD none).bind
      (fun r => r.disableFilterModal)) then
    match e.getSearchEntry with
    | some g => let r := DValue.vstr (g entry); if isNullish r then entry else r
    | none => entry
  else
    match e.getRenderedEntry with
    | some g => let r := g entry; if isNullish r then entry else r
    | none => entry

/-- The identity of one option item in `createFilters`:
`getFilterIdentifier?.(entry) ?? entry ?? index`. -/
def pushId (e : FilterEntry) (entry : DValue) (idx : Nat) : DValue :=
  match e.getFilterIdentifier with
  | some g => DValue.vstr (g entry)
  | none => if isNullish entry then DValue.vnum idx else entry

/-- One step of the option-population loop of `createFilters`: the effect
of visiting one row (at index `idx`) on one entry. -/
def pushRow (e : FilterEntry) (name : String) (row : Row) (idx : Nat) :
    FilterEntry :=
  if isDropdownInput e.input || isCheckboxInput e.input then
    let entry := rowGet row name
    let node := pushNode e entry
    let id := pushId e entry idx
    if isNullish node then e
    else
      let pv := jsToString id
      let items := e.input.items.getD []
      if items.all (fun it => it.value ≠ pv) then
        let newItem : JsItem :=
          if isCheckboxInput e.input then
            { value := pv, node := node, checked := some false }
          else
            { value := pv, node := node }
        { e with input := { e.input with items := some (items ++ [newItem]) } }
      else e
  else e

/-- Second phase of `createFilters` for one entry: scan the dataset once,
appending each previously unseen stringified identity as a new item. -/
def phase2Col (data : List Row) (name : String) (e : FilterEntry) :
    FilterEntry :=
  data.enum.foldl (fun acc p => pushRow acc name p.2 p.1) e

/-- Embeds `createFilters` (src/utils/datatable.ts): build one entry per
supplied column, then populate the checkbox/dropdown option lists from
the dataset. -/
def createFilters (data : List Row) (cols : List Column) : Filters :=
  (phase1 cols).map (fun p => (p.1, phase2Col data p.1 p.2))

/-- The filter model the table builds: the DataTable component restricts
the schema to `canFilter` columns (`colsCanFilter`,
src/components/DataTable/DataTable.tsx line 566) before handing it to
`createFilters`.  This is the `buildFilterModel` of the spec. -/
def buildFilterModel (data : List Row) (cols : List Column) : Filters :=
  createFilters data (cols.filter (fun c => c.canFilter = some true))

/-- Contribution of one entry to `countFilters` (guard dispatch and the
per-variant counts exactly as in the source). -/
def countEntry (i : JsInput) : Nat :=
  if isRangeInput i then
    if i.min ≠ some none ∧ i.max ≠ some none then 1 else 0
  else if isCheckboxInput i then
    ((i.items.getD []).filter (fun b => b.checked = some true)).length
  else if isDropdownInput i then
    if !isVNull (i.selected.getD .vundefined) && !isEmptyStrV (i.selected.getD .vundefined)
    then 1 else 0
  else 0

/-- Embeds `countFilters` (src/utils/datatable.ts): the number of
currently applied filters, summed over the entries of the model. -/
def countFilters (fs : Filters) : Nat :=
  (fs.map (fun p => countEntry p.2.input)).sum

/-- Coercion of an entry to a numeric timestamp inside the range branch
of `filterData`: `new Date(entry).getTime()` for dates, numbers and
strings.  `pd` models JavaScript date parsing of strings; `none` stands
for `NaN` (an invalid date), under which every bounded comparison in
the source evaluates to `false`. -/
def rangeCoerce (pd : String → Option Int) : DValue → Option Int
  | .vdate t => some t
  | .vnum n => some n
  | .vstr s => pd s
  | _ => none

/-- The effective value a filter inspects for one column of a row:
`filter.getFilterIdentifier?.(row[column]) ?? row[column]` (the
extractor returns a string and is never nullish when present). -/
def effectiveEntry (filter : FilterEntry) (row : Row) (column : String) :
    DValue :=
  match filter.getFilterIdentifier with
  | some g => DValue.vstr (g (rowGet row column))
  | none => rowGet row column

/-- Per-column keep test of `filterData`: the body of the
`columns.filter` callback for one column of the row. -/
def columnPass (pd : String → Option Int) (filters : Filters) (row : Row)
    (column : String) : Bool :=
  match lookupF filters column with
  | none => true
  | some filter =>
    let input := filter.input
    let entry := effectiveEntry filter row column
    if isCheckboxInput input then
      let checkedCount :=
        ((input.items.getD []).filter (fun b => b.checked = some true)).length
      if typeofV entry ≠ "string" ∧ typeofV entry ≠ "number" ∧
          typeofV entry ≠ "boolean" then
        true
      else
        ((input.items.getD []).find? (fun it =>
            it.checked = some true && it.value = jsToString entry)).isSome
          || checkedCount = 0
    else if isRangeInput input then
      let mn := input.min.getD none
      let mx := input.max.getD none
      if mn = none ∧ mx = none then true
      else
        match rangeCoerce pd entry with
        | some x =>
          match mn, mx with
          | some lo, some hi => decide (lo ≤ x) && decide (x ≤ hi)
          | some lo, none => decide (lo ≤ x)
          | none, some hi => decide (x ≤ hi)
          | none, none => false
        | none => false
    else if isDropdownInput input then
      let dropdownOptionEntry := effectiveEntry filter row column
      let sel := input.selected.getD .vundefined
      jsStrictEq dropdownOptionEntry sel || isVNull sel || isEmptyStrV sel
    else true

/-- Embeds `filterData` (src/utils/datatable.ts): keep a row iff every
column of the row passes its filter (absent filters pass). -/
def filterData (pd : String → Option Int) (data : List (Nat × Row))
    (filters : Option Filters) : List (Nat × Row) :=
  match filters with
  | none => data
  | some fs =>
    data.flatMap (fun kr =>
      let columns := kr.2.map Prod.fst
      let keepFields := columns.filter (fun c => columnPass pd fs kr.2 c)
      if keepFields.length = columns.length then [kr] else [])

/-- Removal of all whitespace, `s.replace(/\s/gu, '')`. -/
def stripWS (s : String) : String := String.mk (s.data.filter (fun c => !c.isWhitespace))

/-- Models `toLocaleLowerCase` characterwise (sufficient for the claims,
which never depend on locale-specific case folding). -/
def jsToLowerCase (s : String) : String := String.mk (s.data.map Char.toLower)

/-- Normalisation applied to candidate text in `searchData`:
strip whitespace, then lowercase (`replace(/\s/gu, '').toLocaleLowerCase()`). -/
def stripLower (s : String) : String := jsToLowerCase (stripWS s)

/-- Whether the first character list is an initial segment of the second. -/
def startsWithL : List Char → List Char → Bool
  | [], _ => true
  | _ :: _, [] => false
  | a :: as, b :: bs => a == b && startsWithL as bs

/-- Whether the first character list occurs contiguously in the second. -/
def infixTestL (q s : List Char) : Bool :=
  match s with
  | [] => q.isEmpty
  | _ :: rest => startsWithL q s || infixTestL q rest

/-- Substring test standing for `new RegExp(escapeRegExp(q), 'u').test(s)`:
because the query is regex-escaped before use, the regex matches exactly
where the raw query text occurs literally, and the empty query matches
everything. -/
def substrTest (q s : String) : Bool := infixTestL q.data s.data

/-- Models `formatDate` (src/utils/format.ts, moment-based rendering).
The claims never depend on the rendered text, only on it being a string. -/
def fmtDate (style : String) (v : DValue) : String := style ++ " " ++ jsToString v

/-- Embeds `dataString` (src/components/DataTable/DataTable.tsx):
display-string conversion of an entry. -/
def dataString (v : DValue) (style : Option String) : DValue :=
  if (typeofV v = "number" ∨ isDateV v ∨ typeofV v = "string") ∧
      (style = some "date" ∨ style = some "datetime" ∨ style = some "time") then
    .vstr (fmtDate (style.getD "") v)
  else if isElemV v then v
  else if typeofV v = "object" then .vstr "-"
  else if isNullish v ∨ isEmptyStrV v then .vstr "-"
  else .vstr (jsToString v)

/-- Match test of one column against the search input: the body of the
inner `columns.filter` callback of `searchData`. -/
def searchColMatch (input : String) (row : Row) (c : Column) : Bool :=
  let raw := rowGet row c.name
  let rawValue := dataString raw c.style
  let value0 :=
    match rawValue with
    | .vstr s =>
      if c.getRenderedEntry.isSome ∧ typeofV raw = "object" then ""
      else stripLower s
    | _ => ""
  let value :=
    match c.getSearchEntry with
    | some g => stripLower (g raw)
    | none => value0
  substrTest input value

/-- Embeds the row-filtering part of `searchData`
(src/components/DataTable/DataTable.tsx): keep a row iff at least one
column's derived text matches the (escaped) input.  The page-clamping
side effect touches only pagination UI state, not the returned rows. -/
def searchData (input : String) (data : List (Nat × Row))
    (cols : List Column) : List (Nat × Row) :=
  data.filter (fun kr =>
    (cols.filter (fun c => searchColMatch input kr.2 c)).length > 0)

/-- Embeds the query normalisation of `handleSearchChange`: lowercase,
strip whitespace, and store the empty query when nothing remains. -/
def handleSearchInput (raw : String) : String :=
  let input := stripWS (jsToLowerCase raw)
  if input.length < 1 then "" else input

/-- Model of `isDict` (src/utils/isDict.ts): a non-null object that is
neither an array nor a `Date`. -/
def isDictV (v : DValue) : Bool :=
  typeofV v = "object" && !isVNull v && !isArrV v && !isDateV v

/-- Timestamp of a sortable operand in the date branches of `sortData`:
`new Date(x).getTime()` for a `Date`, number or string.  `pd` models
string date parsing (total here: the `NaN` of an unparseable string is
outside the claims, which exclude the date branches). -/
def toTime (pd : String → Int) : DValue → Int
  | .vdate t => t
  | .vnum n => n
  | .vstr s => pd s
  | _ => 0

/-- The numeric value of a `DValue` known to be a number. -/
def numOf : DValue → Int
  | .vnum n => n
  | _ => 0

/-- Models the time-of-day normalisation of the `time` branch of
`sortData` (the date portion is reset to today, leaving only the
time-of-day to differ). -/
def timePart (t : Int) : Int := t % 86400000

/-- Embeds the `sortData` comparator
(src/components/DataTable/DataTable.tsx lines 377-502), with its exact
dispatch order: missing column, date/datetime, time, numbers, custom
comparator on dicts, `getSearchEntry` on plain objects, string fallback.
The numeric sub-branch of the `getSearchEntry` case cannot fire because
the declared extractor type returns strings. -/
def sortData (pd : String → Int) (cols : List Column) (sortingBy : String)
    (sortingOrder : String) (a b : Nat × Row) : Int :=
  let valueA := rowGet a.2 sortingBy
  let valueB := rowGet b.2 sortingBy
  match cols.find? (fun c => c.name = sortingBy) with
  | none => -1
  | some column =>
    if column.style = some "date" ∨ column.style = some "datetime" then
      let cmprA := if sortingOrder = "asc" then valueB else valueA
      let cmprB := if sortingOrder = "asc" then valueA else valueB
      if !(isDateV cmprA || typeofV cmprA = "number" || typeofV cmprA = "string")
      then 1
      else if !(isDateV cmprB || typeofV cmprB = "number" ||
          typeofV cmprB = "string") then -1
      else toTime pd cmprA - toTime pd cmprB
    else if column.style = some "time" then
      let cmprA := if sortingOrder = "asc" then valueB else valueA
      let cmprB := if sortingOrder = "asc" then valueA else valueB
      if !(isDateV cmprA || typeofV cmprA = "number" || typeofV cmprA = "string")
      then 1
      else if !(isDateV cmprB || typeofV cmprB = "number" ||
          typeofV cmprB = "string") then -1
      else timePart (toTime pd cmprA) - timePart (toTime pd cmprB)
    else if (typeofV valueA == "number") && (typeofV valueB == "number") then
      (if sortingOrder = "asc" then 1 else -1) * (numOf valueB - numOf valueA)
    else if column.sort.isSome && isDictV valueA && isDictV valueB then
      let value := (column.sort.getD (fun _ _ => 0)) valueA valueB
      if sortingOrder = "asc" then value else value * -1
    else if column.getSearchEntry.isSome && !isDateV valueB && !isDateV valueA &&
        !isElemV valueB && !isElemV valueA && (typeofV valueB == "object") &&
        (typeofV valueA == "object") && !isArrV valueB && !isArrV valueA &&
        !isVNull valueB && !isVNull valueA then
      let g := column.getSearchEntry.getD (fun _ => "")
      (if sortingOrder = "asc" then 1 else -1) *
        localeCompare (g valueB) (g valueA)
    else
      (if sortingOrder = "asc" then 1 else -1) *
        localeCompare (jsToString valueB) (jsToString valueA)

/-- Stable insertion of an element into an already-sorted list: the
element goes after every earlier element that does not compare
strictly greater. -/
def sortInsert {α : Type} (cmp : α → α → Int) (x : α) : List α → List α
  | [] => [x]
  | y :: ys => if cmp y x ≤ 0 then y :: sortInsert cmp x ys else x :: y :: ys

/-- Stable comparator sort, modelling `Array.prototype.sort(cmp)` (stable
per the ECMAScript specification) for a consistent comparator. -/
def jsSortBy {α : Type} (cmp : α → α → Int) (l : List α) : List α :=
  l.foldl (fun acc x => sortInsert cmp x acc) []

/-!
Filter editing session (the `FilterModal` component,
src/components/DataTable/DataTable.tsx lines 862-1252).

`selectCheckbox` assigns `item.checked` on the very item objects it
maps over, so aliasing between the draft and the committed model is
observable.  The session model therefore stores checkbox/dropdown item
objects in an explicit heap: an input holds references (indices) into
the heap, `useState`/prop handoffs copy references, and `cloneDeep`
allocates fresh cells.  Everything else has value semantics, which
matches the source: items are the only objects the session mutates in
place through a shared reference.
-/

/-- A filter input at reference level: like `JsInput` but the item list
holds heap references instead of item objects. -/
structure JsInputR where
  items : Option (List Nat) := none
  selected : Option DValue := none
  min : Option (Option Int) := none
  max : Option (Option Int) := none
  rendering : Option (Option RenderOptions) := none

/-- Shape guard `isCheckboxInput` applied to a reference-level input. -/
def isCheckboxInputR (i : JsInputR) : Bool := i.items.isSome && !i.selected.isSome

/-- Shape guard `isDropdownInput` applied to a reference-level input. -/
def isDropdownInputR (i : JsInputR) : Bool := i.items.isSome && i.selected.isSome

/-- Shape guard `isRangeInput` applied to a reference-level input. -/
def isRangeInputR (i : JsInputR) : Bool := i.min.isSome && i.max.isSome

/-- A filter-model entry at reference level.  Extractor functions are
carried along unchanged (the session never calls or rewrites them). -/
structure EntryR where
  style : String
  input : JsInputR
  getRenderedEntry : Option (DValue → DValue) := none
  getSearchEntry : Option (DValue → String) := none
  getFilterIdentifier : Option (DValue → String) := none

/-- A reference-level filter model. -/
abbrev FiltersR := List (String × EntryR)

/-- State of the filter editing session: the shared item heap, the
committed model held by the parent (`filters` state of `DataTable`),
and the modal state `backupSelectedFilters` / `selectedFilters` /
`validation.cleared`. -/
structure SessionState where
  heap : List JsItem
  committed : FiltersR
  backup : FiltersR
  selected : FiltersR
  cleared : Bool

/-- The default cell read for an out-of-range heap reference. -/
def dummyItem : JsItem := { value := "", node := .vundefined }

/-- Heap read. -/
def heapGet (heap : List JsItem) (r : Nat) : JsItem := heap.getD r dummyItem

/-- Value-level view of a reference-level input: dereference the items. -/
def denoteInput (heap : List JsItem) (i : JsInputR) : JsInput :=
  { items := i.items.map (fun refs => refs.map (heapGet heap))
    selected := i.selected
    min := i.min
    max := i.max
    rendering := i.rendering }

/-- Value-level view of a reference-level entry. -/
def denoteEntry (heap : List JsItem) (e : EntryR) : FilterEntry :=
  { style := e.style
    input := denoteInput heap e.input
    getRenderedEntry := e.getRenderedEntry
    getSearchEntry := e.getSearchEntry
    getFilterIdentifier := e.getFilterIdentifier }

/-- Value-level view of a reference-level filter model: what any reader
of the model (for instance `filterData` or `countFilters`) observes. -/
def denoteFilters (heap : List JsItem) (fs : FiltersR) : Filters :=
  fs.map (fun p => (p.1, denoteEntry heap p.2))

/-- Opening the modal on a committed model: `useState(filters)` seeds
`backupSelectedFilters` and `selectedFilters`, and the
`useEffect(() => setSelectedFilters(filters), [filters])` sync assigns
the committed model by reference (no copy is taken). -/
def openSession (heap : List JsItem) (committed : FiltersR) : SessionState :=
  { heap := heap, committed := committed, backup := committed,
    selected := committed, cleared := false }

/-- In-place update `item.checked = checked` applied, during
`selectedInput.items.map`, to every item object of `refs` whose `value`
matches: a heap write at those references. -/
def updateItems (refs : List Nat) (val : String) (chk : Bool) :
    Nat → List JsItem → List JsItem
  | _, [] => []
  | i, it :: rest =>
    (if refs.contains i && it.value = val then { it with checked := some chk }
     else it) :: updateItems refs val chk (i + 1) rest

/-- Embeds `selectCheckbox`: under the checkbox guard, set the matching
item's `checked` flag (mutating the shared item object in place) and
rewrite only the targeted column's entry of the draft, the rebuilt
`items` array holding the same references.  The source throws on a
column absent from the draft; that unreachable case is a no-op here. -/
def selectCheckbox (s : SessionState) (columnName val : String) (chk : Bool) :
    SessionState :=
  match lookupF s.selected columnName with
  | none => s
  | some e =>
    if isCheckboxInputR e.input then
      let refs := e.input.items.getD []
      let newInput : JsInputR := { e.input with items := some refs }
      let newEntry : EntryR := { e with input := newInput }
      { s with
        heap := updateItems refs val chk 0 s.heap
        selected := objSet s.selected columnName newEntry }
    else s

/-- Embeds `setRange`: under the range guard, structurally replace the
targeted column's entry with new bounds; a column name missing from the
schema is a no-op (early return in the source). -/
def setRange (cols : List Column) (s : SessionState) (columnName : String)
    (mn mx : Option Int) : SessionState :=
  match cols.find? (fun c => c.name = columnName) with
  | none => s
  | some column =>
    match lookupF s.selected columnName with
    | none => s
    | some e =>
      if isRangeInputR e.input then
        let newInput : JsInputR := { e.input with min := some mn, max := some mx }
        let newEntry : EntryR := { e with input := newInput }
        { s with selected := objSet s.selected column.name newEntry }
      else s

/-- Embeds `setSelect`: under the dropdown guard, structurally replace
the targeted column's entry with the new selection. -/
def setSelect (cols : List Column) (s : SessionState) (columnName : String)
    (sel : DValue) : SessionState :=
  match cols.find? (fun c => c.name = columnName) with
  | none => s
  | some column =>
    match lookupF s.selected columnName with
    | none => s
    | some e =>
      if isDropdownInputR e.input then
        let newInput : JsInputR :=
          { e.input with items := some (e.input.items.getD []),
                         selected := some sel }
        let newEntry : EntryR := { e with input := newInput }
        { s with selected := objSet s.selected column.name newEntry }
      else s

/-- Per-entry effect of `clearFilters`: `cloneDeep` allocates fresh heap
cells for the items, then the per-guard reset unchecks every checkbox
item, nulls both range bounds, or nulls the dropdown selection. -/
def clearEntry (heap : List JsItem) (e : EntryR) : List JsItem × EntryR :=
  let derefed := (e.input.items.getD []).map (heapGet heap)
  if isCheckboxInputR e.input then
    let cleared := derefed.map (fun it => { it with checked := some false })
    let refs := List.range' heap.length derefed.length
    (heap ++ cleared, ({ e with input := { e.input with items := some refs } }))
  else if isRangeInputR e.input then
    (heap, ({ e with input := { e.input with min := some none, max := some none } }))
  else if isDropdownInputR e.input then
    let refs := List.range' heap.length derefed.length
    (heap ++ derefed,
      ({ e with input := { e.input with items := some refs,
                                         selected := some .vnull } }))
  else (heap, e)

/-- One step of the entry loop of `clearFilters`: thread the heap
through `clearEntry` and append the cleared entry. -/
def clearStep (acc : List JsItem × FiltersR) (p : String × EntryR) :
    List JsItem × FiltersR :=
  let he := clearEntry acc.1 p.2
  (he.1, acc.2 ++ [(p.1, he.2)])

/-- Embeds `clearFilters`: back the draft up for soft deletion, mark the
session cleared, and replace the draft with a deep-cloned, cleared copy. -/
def clearFilters (s : SessionState) : SessionState :=
  let step := s.selected.foldl clearStep (s.heap, [])
  { s with cleared := true, backup := s.selected,
           heap := step.1, selected := step.2 }

/-- Embeds `handleClose`: closing without apply rolls the draft back to
the backup when the session was cleared, otherwise changes nothing. -/
def handleClose (s : SessionState) : SessionState :=
  if s.cleared then { s with selected := s.backup } else s

/-- Embeds `handleApplyFilters` plus the parent's `onApply` handler
(`setFilters`): commit the draft by reference and reset the cleared flag. -/
def handleApplyFilters (s : SessionState) : SessionState :=
  { s with cleared := false, committed := s.selected }

/-!
Specification-side definitions and predicates used to state the claims,
followed by concrete fixtures used by witnesses and counterexamples.
-/

/-- Formalises, in the words of the spec, the RangeFilter rule of §4.3:
both bounds null passes; otherwise the effective value is coerced to a
numeric timestamp when date-like or numeric-like, non-coercible values
are excluded, and the value passes iff it satisfies whichever bounds
are set, inclusively at both ends. -/
def rangeSpecPass (pd : String → Option Int) (mn mx : Option Int)
    (effective : DValue) : Bool :=
  match mn, mx with
  | none, none => true
  | _, _ =>
    match rangeCoerce pd effective with
    | none => false
    | some x =>
      (match mn with
        | some lo => decide (lo ≤ x)
        | none => true) &&
      (match mx with
        | some hi => decide (x ≤ hi)
        | none => true)

/-- Whether a possibly-absent selection field holds exactly `null`. -/
def selectedIsNull (i : JsInput) : Bool :=
  match i.selected with
  | some .vnull => true
  | _ => false

/-- An entry carries no active constraint: all checkbox items unchecked,
both range bounds null, null dropdown selection (the three inactive
variants of the claim, keyed by the shape guard the entry satisfies). -/
def entryInactive (e : FilterEntry) : Prop :=
  (isCheckboxInput e.input = true →
    ∀ it ∈ e.input.items.getD [], it.checked ≠ some true) ∧
  (isRangeInput e.input = true →
    e.input.min = some none ∧ e.input.max = some none) ∧
  (isDropdownInput e.input = true → selectedIsNull e.input = true)

instance (e : FilterEntry) : Decidable (entryInactive e) := by
  unfold entryInactive
  infer_instance

/-- Shape of a builder-produced entry, determined by its style: range
columns get exactly the two null bounds, select columns an item list
with a null selection, and every other column a bare item list. -/
def builtShape (e : FilterEntry) : Prop :=
  if e.style = "date" ∨ e.style = "datetime" ∨ e.style = "time" ∨
      e.style = "number" then
    e.input.items = none ∧ e.input.selected = none ∧
      e.input.min = some none ∧ e.input.max = some none
  else if e.style = "select" then
    e.input.items.isSome = true ∧ e.input.selected = some .vnull ∧
      e.input.min = none ∧ e.input.max = none
  else
    e.input.items.isSome = true ∧ e.input.selected = none ∧
      e.input.min = none ∧ e.input.max = none

/-- Invariant of every entry produced by `createFilters`: the
style-determined shape, pairwise-distinct item identities, and no
checked item. -/
def builtEntryInv (e : FilterEntry) : Prop :=
  builtShape e ∧
  ((e.input.items.getD []).map (fun it => it.value)).Nodup ∧
  ∀ it ∈ e.input.items.getD [], it.checked ≠ some true

/-- The entry satisfies exactly the shape guard its style selects
(range for number/date/datetime/time, dropdown for select, checkbox
otherwise), and neither of the other two. -/
def styleGuardOK (e : FilterEntry) : Prop :=
  if e.style = "date" ∨ e.style = "datetime" ∨ e.style = "time" ∨
      e.style = "number" then
    isRangeInput e.input = true ∧ isCheckboxInput e.input = false ∧
      isDropdownInput e.input = false
  else if e.style = "select" then
    isDropdownInput e.input = true ∧ isCheckboxInput e.input = false ∧
      isRangeInput e.input = false
  else
    isCheckboxInput e.input = true ∧ isDropdownInput e.input = false ∧
      isRangeInput e.input = false

/-- The triple of shape-guard verdicts of a reference-level input, used
to state that session edits never change which guard an input satisfies. -/
def guardsR (e : EntryR) : Bool × Bool × Bool :=
  (isCheckboxInputR e.input, isDropdownInputR e.input, isRangeInputR e.input)

/-- One item is the other, possibly after an in-place `checked = true`
write: the pointwise effect of a checking heap update. -/
def itemUp (a b : JsItem) : Prop :=
  b = a ∨ b = { a with checked := some true }

/-- String date parsing never needed by the fixtures (no string reaches
a range coercion or date branch there). -/
def pdNone : String → Option Int := fun _ => none

/-- Total string date parsing for the sort fixtures (no string reaches a
date branch there). -/
def pdZero : String → Int := fun _ => 0

/-- Fixture: a numeric, filterable `age` column. -/
def ageColumn : Column :=
  { name := "age", style := some "number", canFilter := some true }

/-- Fixture: a plain filterable column. -/
def lastNameColumn : Column := { name := "lastName", canFilter := some true }

/-- Fixture: the dataset of the sorting example, in its original order. -/
def sortExample : List (Nat × Row) :=
  [(0, [("age", .vnum 26)]), (1, [("age", .vnum 12)]), (2, [("age", .vnum 39)])]

/-- Fixture: the dataset of the range-filter example. -/
def rangeExample : List (Nat × Row) :=
  [(0, [("age", .vnum 26)]), (1, [("age", .vnum 39)]), (2, [("age", .vnum 12)])]

/-- Fixture: the range entry of the range-filter example (min 20,
max 40). -/
def rangeAgeEntry : FilterEntry :=
  { style := "number",
    input := { min := some (some 20), max := some (some 40) } }

/-- Fixture: the filter model of the range-filter example (min 20, max 40
on `age`). -/
def rangeExampleModel : Filters := [("age", rangeAgeEntry)]

/-- Fixture: a filter model in which every constraint is inactive: all
checkbox items unchecked, null dropdown selection, both range bounds
null. -/
def inactiveModel : Filters :=
  [("lastName",
    { style := "default",
      input := { items := some [{ value := "Smith", node := .vstr "Smith",
                                  checked := some false }],
                 rendering := some none } }),
   ("sel",
    { style := "select",
      input := { items := some [{ value := "1", node := .vstr "1" }],
                 selected := some .vnull, rendering := some none } }),
   ("age",
    { style := "number", input := { min := some none, max := some none } })]

/-- Fixture: the entry the builder produces for the `age` column over an
empty dataset. -/
def rangeAgeEmptyEntry : FilterEntry :=
  { style := "number", input := { min := some none, max := some none } }

/-- Fixture: a one-cell heap holding a single unchecked checkbox item. -/
def heapFix : List JsItem := [{ value := "x", node := .vstr "x", checked := some false }]

/-- Fixture: a committed model with one checkbox entry whose single item
lives at heap cell 0. -/
def committedFix : FiltersR :=
  [("c", { style := "default", input := { items := some [0] } })]

/-- Fixture: the session opened on the fixture model. -/
def sessionFix : SessionState := openSession heapFix committedFix

/-- Fixture: the fixture session after checking the item of column `c`. -/
def sessionFixChecked : SessionState := selectCheckbox sessionFix "c" "x" true

/-!
General lemmas about the association-list object operations and the
session primitives.
-/

lemma lookupF_cons {α : Type} (p : String × α) (fs : List (String × α))
    (k : String) :
    lookupF (p :: fs) k = if p.1 = k then some p.2 else lookupF fs k := by
  by_cases hp : p.1 = k
  · simp [lookupF, List.find?_cons_of_pos, hp]
  · simp [lookupF, List.find?_cons_of_neg, hp]

lemma lookupF_map_set_ne {α : Type} (fs : List (String × α)) (k : String)
    (v : α) (c2 : String) (h : c2 ≠ k) :
    lookupF (fs.map (fun p => if p.1 = k then (k, v) else p)) c2 =
      lookupF fs c2 := by
  induction fs with
  | nil => rfl
  | cons q qs ih =>
    rw [List.map_cons, lookupF_cons, lookupF_cons]
    by_cases hq : q.1 = k
    · rw [if_pos hq]
      rw [if_neg (show ¬(k, v).1 = c2 from Ne.symm h),
        if_neg (show ¬q.1 = c2 from by rw [hq]; exact Ne.symm h)]
      exact ih
    · rw [if_neg hq]
      by_cases hc : q.1 = c2
      · rw [if_pos hc, if_pos hc]
      · rw [if_neg hc, if_neg hc]
        exact ih

lemma lookupF_append_single_ne {α : Type} (fs : List (String × α))
    (k : String) (v : α) (c2 : String) (h : c2 ≠ k) :
    lookupF (fs ++ [(k, v)]) c2 = lookupF fs c2 := by
  induction fs with
  | nil =>
    show lookupF [(k, v)] c2 = lookupF [] c2
    rw [lookupF_cons]
    simp [lookupF, Ne.symm h]
  | cons q qs ih =>
    rw [List.cons_append, lookupF_cons, lookupF_cons]
    by_cases hc : q.1 = c2
    · rw [if_pos hc, if_pos hc]
    · rw [if_neg hc, if_neg hc]
      exact ih

lemma lookupF_objSet_ne {α : Type} (fs : List (String × α)) (k : String)
    (v : α) (c2 : String) (h : c2 ≠ k) :
    lookupF (objSet fs k v) c2 = lookupF fs c2 := by
  unfold objSet
  split_ifs
  · exact lookupF_map_set_ne fs k v c2 h
  · exact lookupF_append_single_ne fs k v c2 h

lemma clearEntry_heap_ext (heap : List JsItem) (e : EntryR) :
    ∃ ext, (clearEntry heap e).1 = heap ++ ext := by
  unfold clearEntry
  split_ifs
  · exact ⟨_, rfl⟩
  · exact ⟨[], (List.append_nil _).symm⟩
  · exact ⟨_, rfl⟩
  · exact ⟨[], (List.append_nil _).symm⟩

lemma clearFold_heap_ext (l : FiltersR) :
    ∀ (hp : List JsItem) (acc : FiltersR),
    ∃ ext, (l.foldl clearStep (hp, acc)).1 = hp ++ ext := by
  induction l with
  | nil => exact fun hp acc => ⟨[], (List.append_nil _).symm⟩
  | cons p ps ih =>
    intro hp acc
    obtain ⟨e1, he1⟩ := clearEntry_heap_ext hp p.2
    obtain ⟨e2, he2⟩ := ih (clearStep (hp, acc) p).1 (clearStep (hp, acc) p).2
    refine ⟨e1 ++ e2, ?_⟩
    calc (List.foldl clearStep (clearStep (hp, acc) p) ps).1
      = (clearStep (hp, acc) p).1 ++ e2 := he2
    _ = (hp ++ e1) ++ e2 := by rw [show (clearStep (hp, acc) p).1 = hp ++ e1 from he1]
    _ = hp ++ (e1 ++ e2) := List.append_assoc hp e1 e2

lemma infixTestL_nil (l : List Char) : infixTestL [] l = true := by
  cases l <;> simp [infixTestL, startsWithL, List.isEmpty]

lemma substrTest_empty (s : String) : substrTest "" s = true := by
  have h : ("" : String).data = [] := rfl
  simp [substrTest, h, infixTestL_nil]

/-!
Claim theorems.
-/

/-- Claim C8: for every editing-session draft, `clear()` followed by
`close()` without an intervening `apply()` restores the draft to exactly
the pre-clear draft (the clear is discarded); the heap is only extended
by the clones the clear allocated, so every pre-existing item is intact. -/
theorem clear_close_roundtrip (s : SessionState) :
    (handleClose (clearFilters s)).selected = s.selected ∧
    ∃ ext, (handleClose (clearFilters s)).heap = s.heap ++ ext := by
  constructor
  · simp [handleClose, clearFilters]
  · have h := clearFold_heap_ext s.selected s.heap []
    simpa [handleClose, clearFilters] using h

/-- Claim C1 (counterexample): toggling a checkbox item of the draft
session mutates the committed model before `apply` is ever called —
the committed model's observable active-filter count changes from 0 to
1, because `selectCheckbox` writes `item.checked` through an item object
the draft shares with the committed model. -/
theorem checkbox_toggle_mutates_committed :
    countFilters (denoteFilters sessionFixChecked.heap
        sessionFixChecked.committed) = 1 ∧
    countFilters (denoteFilters sessionFix.heap sessionFix.committed) = 0 :=
  ⟨rfl, rfl⟩

/-- Claim C1 (amended): opening a session takes the committed model by
reference, so the draft initially denotes exactly the committed model;
every mutate-item edit rewrites only the targeted column's entry,
preserving every sibling entry of the draft; range and dropdown edits
leave the heap and the committed model untouched; a checkbox toggle
leaves the committed model structurally untouched, though it writes the
shared item objects in place (see the counterexample). -/
theorem session_edit_frame :
    (∀ heap committed,
      denoteFilters (openSession heap committed).heap
          (openSession heap committed).selected =
        denoteFilters heap committed) ∧
    (∀ cols s col mn mx,
      (setRange cols s col mn mx).heap = s.heap ∧
      (setRange cols s col mn mx).committed = s.committed ∧
      ∀ c2, c2 ≠ col →
        lookupF (setRange cols s col mn mx).selected c2 =
          lookupF s.selected c2) ∧
    (∀ cols s col sel,
      (setSelect cols s col sel).heap = s.heap ∧
      (setSelect cols s col sel).committed = s.committed ∧
      ∀ c2, c2 ≠ col →
        lookupF (setSelect cols s col sel).selected c2 =
          lookupF s.selected c2) ∧
    (∀ s col val chk,
      (selectCheckbox s col val chk).committed = s.committed ∧
      ∀ c2, c2 ≠ col →
        lookupF (selectCheckbox s col val chk).selected c2 =
          lookupF s.selected c2) := by
  refine ⟨fun heap committed => rfl, ?_, ?_, ?_⟩
  · intro cols s col mn mx
    cases hf : cols.find? (fun c => c.name = col) with
    | none => simp [setRange, hf]
    | some column =>
      have hname : column.name = col := by simpa using List.find?_some hf
      cases hl : lookupF s.selected col with
      | none => simp [setRange, hf, hl]
      | some e =>
        by_cases hg : isRangeInputR e.input = true
        · simp only [setRange, hf, hl, if_pos hg]
          refine ⟨trivial, trivial, fun c2 hc2 => ?_⟩
          rw [hname]
          exact lookupF_objSet_ne _ _ _ _ hc2
        · simp [setRange, hf, hl, hg]
  · intro cols s col sel
    cases hf : cols.find? (fun c => c.name = col) with
    | none => simp [setSelect, hf]
    | some column =>
      have hname : column.name = col := by simpa using List.find?_some hf
      cases hl : lookupF s.selected col with
      | none => simp [setSelect, hf, hl]
      | some e =>
        by_cases hg : isDropdownInputR e.input = true
        · simp only [setSelect, hf, hl, if_pos hg]
          refine ⟨trivial, trivial, fun c2 hc2 => ?_⟩
          rw [hname]
          exact lookupF_objSet_ne _ _ _ _ hc2
        · simp [setSelect, hf, hl, hg]
  · intro s col val chk
    cases hl : lookupF s.selected col with
    | none => simp [selectCheckbox, hl]
    | some e =>
      by_cases hg : isCheckboxInputR e.input = true
      · simp only [selectCheckbox, hl, if_pos hg]
        refine ⟨trivial, fun c2 hc2 => ?_⟩
        exact lookupF_objSet_ne _ _ _ _ hc2
      · simp [selectCheckbox, hl, hg]

/-- Witness for the C1 frame theorem at the concrete fixture session:
a checkbox toggle on column `c` leaves the committed model structurally
unchanged and does not rewrite the (absent) sibling column `d`. -/
theorem session_edit_frame_witness :
    (selectCheckbox sessionFix "c" "x" true).committed =
        sessionFix.committed ∧
    lookupF (selectCheckbox sessionFix "c" "x" true).selected "d" =
      lookupF sessionFix.selected "d" :=
  ⟨(session_edit_frame.2.2.2 sessionFix "c" "x" true).1,
   (session_edit_frame.2.2.2 sessionFix "c" "x" true).2 "d" (by decide)⟩

/-- Claim C2 (counterexample): sorting the example dataset by `age` with
direction descending does not return the records in descending order
of age. -/
theorem sort_desc_cex :
    jsSortBy (sortData pdZero [ageColumn] "age" "desc") sortExample ≠
      [(2, [("age", DValue.vnum 39)]), (0, [("age", DValue.vnum 26)]),
       (1, [("age", DValue.vnum 12)])] := by
  intro h
  have h1 : (jsSortBy (sortData pdZero [ageColumn] "age" "desc")
      sortExample).map Prod.fst = [1, 0, 2] := rfl
  rw [h] at h1
  simp at h1

/-- Claim C2 (amended): the direction convention of the numeric rule is
inverted — sorting the example dataset by `age` descending yields the
ages in ascending order 12, 26, 39, and ascending yields 39, 26, 12. -/
theorem sort_numeric_direction_inverted :
    jsSortBy (sortData pdZero [ageColumn] "age" "desc") sortExample =
      [(1, [("age", DValue.vnum 12)]), (0, [("age", DValue.vnum 26)]),
       (2, [("age", DValue.vnum 39)])] ∧
    jsSortBy (sortData pdZero [ageColumn] "age" "asc") sortExample =
      [(2, [("age", DValue.vnum 39)]), (0, [("age", DValue.vnum 26)]),
       (1, [("age", DValue.vnum 12)])] :=
  ⟨rfl, rfl⟩

/-- Claim C5 (counterexample): with an empty column schema, searching
with the empty query does not return the input set — no row can match
because a row is kept only when some column matches. -/
theorem searchData_empty_schema_cex :
    searchData "" [(0, [("age", DValue.vnum 26)])] [] ≠
      [(0, [("age", DValue.vnum 26)])] := by
  intro h
  have := congrArg List.length h
  simp [searchData] at this

/-- Claim C5 (amended): for every dataset and every non-empty column
schema, searching with a raw query that is empty or whitespace-only
(after the lowercasing the input handler applies) returns the full
input set unchanged in order. -/
theorem searchData_blank_query_keeps_all (cols : List Column)
    (hc : cols ≠ []) (data : List (Nat × Row)) (rawq : String)
    (hq : stripWS (jsToLowerCase rawq) = "") :
    searchData (handleSearchInput rawq) data cols = data := by
  have hh : handleSearchInput rawq = "" := by
    simp [handleSearchInput, hq]
  rw [hh]
  unfold searchData
  apply List.filter_eq_self.mpr
  intro kr _
  obtain ⟨c, cs, rfl⟩ := List.exists_cons_of_ne_nil hc
  have hm : searchColMatch "" kr.2 c = true := by
    simp [searchColMatch, substrTest_empty]
  simp [List.filter_cons, hm]

/-- Witness for the C5 theorem: a whitespace-only query over a concrete
one-row dataset and one-column schema returns the dataset. -/
theorem searchData_blank_query_witness :
    searchData (handleSearchInput "  ") [(0, [("age", DValue.vnum 26)])]
        [ageColumn] = [(0, [("age", DValue.vnum 26)])] :=
  searchData_blank_query_keeps_all [ageColumn] (by simp)
    [(0, [("age", DValue.vnum 26)])] "  " (by decide)

lemma cmpChars_antisymm : ∀ l1 l2 : List Char, cmpChars l1 l2 = -cmpChars l2 l1 := by
  intro l1
  induction l1 with
  | nil => intro l2; cases l2 <;> simp [cmpChars]
  | cons a as ih =>
    intro l2
    cases l2 with
    | nil => simp [cmpChars]
    | cons b bs =>
      simp only [cmpChars]
      rcases lt_trichotomy a.toNat b.toNat with h | h | h
      · rw [if_pos h, if_neg (lt_asymm h), if_pos h]
      · rw [if_neg (h ▸ lt_irrefl a.toNat), if_neg (h ▸ lt_irrefl a.toNat),
          if_neg (h ▸ lt_irrefl a.toNat), if_neg (h ▸ lt_irrefl a.toNat)]
        exact ih bs
      · rw [if_neg (lt_asymm h), if_pos h, if_pos h]
        decide

lemma cmpChars_self : ∀ l : List Char, cmpChars l l = 0 := by
  intro l
  induction l with
  | nil => rfl
  | cons a as ih =>
    simp only [cmpChars]
    rw [if_neg (lt_irrefl a.toNat), if_neg (lt_irrefl a.toNat)]
    exact ih

lemma localeCompare_antisymm (a b : String) :
    localeCompare a b = -localeCompare b a := cmpChars_antisymm a.data b.data

lemma localeCompare_self (a : String) : localeCompare a a = 0 :=
  cmpChars_self a.data

set_option maxHeartbeats 1600000 in
/-- On a named non-date column with no custom comparator, swapping the
two records negates the comparator. -/
lemma sortData_swap_neg (pd : String → Int) (cols : List Column)
    (sby ord : String) (column : Column)
    (hfind : cols.find? (fun c => c.name = sby) = some column)
    (hd1 : column.style ≠ some "date") (hd2 : column.style ≠ some "datetime")
    (hd3 : column.style ≠ some "time") (hsort : column.sort = none)
    (a b : Nat × Row) :
    sortData pd cols sby ord a b = -sortData pd cols sby ord b a := by
  simp only [sortData, hfind, hd1, hd2, hd3, hsort, Option.isSome_none,
    Bool.false_and, Bool.and_eq_true, beq_iff_eq, Bool.not_eq_true',
    Bool.false_eq_true, or_self, or_false, false_or, false_and, if_false]
  split_ifs <;>
    first
      | ring1
      | (rw [localeCompare_antisymm]; ring1)
      | tauto

/-- On a named non-date column with no custom comparator, the comparator
vanishes on equal arguments. -/
lemma sortData_refl_zero (pd : String → Int) (cols : List Column)
    (sby ord : String) (column : Column)
    (hfind : cols.find? (fun c => c.name = sby) = some column)
    (hd1 : column.style ≠ some "date") (hd2 : column.style ≠ some "datetime")
    (hd3 : column.style ≠ some "time") (hsort : column.sort = none)
    (a : Nat × Row) :
    sortData pd cols sby ord a a = 0 := by
  simp only [sortData, hfind, hd1, hd2, hd3, hsort, Option.isSome_none,
    Bool.false_and, Bool.and_eq_true, beq_iff_eq, Bool.not_eq_true',
    Bool.false_eq_true, or_self, or_false, false_or, false_and, if_false]
  split_ifs <;>
    first
      | ring1
      | (rw [localeCompare_self]; ring1)

/-- Claim C3 (counterexample): when the sort key names no column of the
schema the comparator returns -1 unconditionally, so it is not
reflexive-zero and its sign is not antisymmetric. -/
theorem sortData_missing_column_cex :
    sortData pdZero [] "age" "desc"
        (0, [("age", DValue.vnum 1)]) (0, [("age", DValue.vnum 1)]) ≠ 0 ∧
    Int.sign (sortData pdZero [] "age" "desc"
        (0, [("age", DValue.vnum 1)]) (1, [("age", DValue.vnum 2)])) ≠
      -Int.sign (sortData pdZero [] "age" "desc"
        (1, [("age", DValue.vnum 2)]) (0, [("age", DValue.vnum 1)])) := by
  exact ⟨by decide, by decide⟩

/-- Claim C3 (amended): for every fixed sort key, direction and schema,
provided the key names a column whose style is not date/datetime/time
and which declares no custom comparator, the comparator is a fixed pure
function inducing a consistent order: its sign is antisymmetric and it
is zero on equal arguments.  (The missing-column branch returns -1
unconditionally, and the date branches and custom comparators break the
laws — see the counterexample.) -/
theorem sortData_consistent_order (pd : String → Int) (cols : List Column)
    (sby ord : String) (column : Column)
    (hfind : cols.find? (fun c => c.name = sby) = some column)
    (hd1 : column.style ≠ some "date") (hd2 : column.style ≠ some "datetime")
    (hd3 : column.style ≠ some "time") (hsort : column.sort = none) :
    (∀ a b, Int.sign (sortData pd cols sby ord a b) =
      -Int.sign (sortData pd cols sby ord b a)) ∧
    (∀ a, sortData pd cols sby ord a a = 0) := by
  constructor
  · intro a b
    rw [sortData_swap_neg pd cols sby ord column hfind hd1 hd2 hd3 hsort a b,
      Int.sign_neg]
  · intro a
    exact sortData_refl_zero pd cols sby ord column hfind hd1 hd2 hd3 hsort a

lemma selectedIsNull_eq {i : JsInput} (h : selectedIsNull i = true) :
    i.selected = some .vnull := by
  unfold selectedIsNull at h
  cases hs : i.selected with
  | none => rw [hs] at h; exact absurd h (by simp)
  | some v => rw [hs] at h; cases v <;> simp_all

lemma lookupF_mem {α : Type} {fs : List (String × α)} {c : String} {f : α}
    (hl : lookupF fs c = some f) : ∃ p ∈ fs, p.2 = f := by
  unfold lookupF at hl
  cases hq : fs.find? (fun p => p.1 = c) with
  | none => rw [hq] at hl; simp at hl
  | some q =>
    rw [hq] at hl
    exact ⟨q, List.mem_of_find?_eq_some hq, by simpa using hl⟩

lemma flatMap_id_of {α : Type} (l : List α) (f : α → List α)
    (h : ∀ x ∈ l, f x = [x]) : l.flatMap f = l := by
  induction l with
  | nil => rfl
  | cons x xs ih =>
    rw [List.flatMap_cons, h x (List.mem_cons_self x xs),
      ih (fun y hy => h y (List.mem_cons_of_mem x hy))]
    rfl

/-- Claim C6: the range branch of `filterData` follows the stated rule —
both bounds null passes; otherwise the effective value is coerced to a
numeric timestamp when date-like or numeric-like, non-coercible values
are excluded, and the value passes iff the set bounds hold inclusively —
and in particular the concrete range example keeps exactly the ages 26
and 39. -/
theorem filterData_range_semantics :
    (∀ (pd : String → Option Int) (filters : Filters) (row : Row)
      (c : String) (f : FilterEntry) (mn mx : Option Int),
      lookupF filters c = some f →
      f.input.items = none →
      f.input.min = some mn → f.input.max = some mx →
      columnPass pd filters row c =
        rangeSpecPass pd mn mx (effectiveEntry f row c)) ∧
    filterData pdNone rangeExample (some rangeExampleModel) =
      [(0, [("age", DValue.vnum 26)]), (1, [("age", DValue.vnum 39)])] := by
  constructor
  · intro pd filters row c f mn mx hl hitems hmin hmax
    have hcb : isCheckboxInput f.input = false := by
      simp [isCheckboxInput, hitems]
    have hrg : isRangeInput f.input = true := by
      simp [isRangeInput, hmin, hmax]
    simp only [columnPass, hl, hcb, hrg, hmin, hmax, Option.getD_some,
      Bool.false_eq_true, if_false, if_true]
    cases hc : rangeCoerce pd (effectiveEntry f row c) with
    | none =>
      rcases mn with _ | lo <;> rcases mx with _ | hi <;>
        simp [rangeSpecPass, hc]
    | some x =>
      rcases mn with _ | lo <;> rcases mx with _ | hi <;>
        simp [rangeSpecPass, hc]
  · rfl

/-- Witness for the C6 theorem at the concrete range entry and a record
with age 26. -/
theorem filterData_range_semantics_witness :
    columnPass pdNone rangeExampleModel [("age", DValue.vnum 26)] "age" =
      rangeSpecPass pdNone (some 20) (some 40)
        (effectiveEntry rangeAgeEntry [("age", DValue.vnum 26)] "age") :=
  filterData_range_semantics.1 pdNone rangeExampleModel
    [("age", DValue.vnum 26)] "age" rangeAgeEntry (some 20) (some 40)
    rfl rfl rfl rfl

/-- Claim C9: applying a filter model in which every constraint is
inactive — every checkbox item unchecked, every dropdown selection null,
every range bound null — returns the dataset unchanged. -/
theorem filterData_inactive_identity (pd : String → Option Int)
    (fs : Filters) (h : ∀ p ∈ fs, entryInactive p.2)
    (data : List (Nat × Row)) :
    filterData pd data (some fs) = data := by
  simp only [filterData]
  apply flatMap_id_of
  intro kr _
  have hall : ∀ c ∈ kr.2.map Prod.fst, columnPass pd fs kr.2 c = true := by
    intro c _
    cases hl : lookupF fs c with
    | none => simp [columnPass, hl]
    | some f =>
      obtain ⟨p, hp, hpeq⟩ := lookupF_mem hl
      have hf : entryInactive f := hpeq ▸ h p hp
      obtain ⟨h1, h2, h3⟩ := hf
      simp only [columnPass, hl]
      by_cases hcb : isCheckboxInput f.input = true
      · have hcount : ((f.input.items.getD []).filter
            (fun b => b.checked = some true)).length = 0 := by
          rw [List.length_eq_zero, List.filter_eq_nil_iff]
          intro it hit
          simpa using h1 hcb it hit
        rw [if_pos hcb]
        split_ifs
        · rfl
        · simp [hcount]
      · by_cases hrg : isRangeInput f.input = true
        · obtain ⟨hmn, hmx⟩ := h2 hrg
          rw [if_neg hcb, if_pos hrg]
          simp [hmn, hmx]
        · by_cases hdd : isDropdownInput f.input = true
          · have hsel := selectedIsNull_eq (h3 hdd)
            rw [if_neg hcb, if_neg hrg, if_pos hdd]
            simp [hsel, isVNull]
          · rw [if_neg hcb, if_neg hrg, if_neg hdd]
  have hfilter : (kr.2.map Prod.fst).filter
      (fun c => columnPass pd fs kr.2 c) = kr.2.map Prod.fst :=
    List.filter_eq_self.mpr hall
  simp [hfilter]

/-- Witness for the C9 theorem: a concrete all-inactive model (checkbox,
dropdown and range entries) over the concrete dataset. -/
theorem filterData_inactive_identity_witness :
    filterData pdNone rangeExample (some inactiveModel) = rangeExample :=
  filterData_inactive_identity pdNone inactiveModel (by decide) rangeExample

lemma mem_objSet {α : Type} {fs : List (String × α)} {k : String} {v : α}
    {p : String × α} (h : p ∈ objSet fs k v) : p ∈ fs ∨ p = (k, v) := by
  unfold objSet at h
  split_ifs at h
  · obtain ⟨q, hq, hqe⟩ := List.mem_map.mp h
    by_cases hqk : q.1 = k
    · right; rw [if_pos hqk] at hqe; exact hqe.symm
    · left; rw [if_neg hqk] at hqe; exact hqe ▸ hq
  · rcases List.mem_append.mp h with h2 | h2
    · exact Or.inl h2
    · right; simpa using h2

lemma phase1Entry_inv (c : Column) : builtEntryInv (phase1Entry c) := by
  unfold phase1Entry
  by_cases h1 : c.style.getD "default" = "date" ∨
      c.style.getD "default" = "datetime" ∨
      c.style.getD "default" = "time" ∨ c.style.getD "default" = "number"
  · rw [if_pos h1]
    refine ⟨?_, by simp, by simp⟩
    unfold builtShape
    dsimp only
    rw [if_pos h1]
    simp
  · rw [if_neg h1]
    by_cases h2 : c.style.getD "default" = "select"
    · rw [if_pos h2]
      refine ⟨?_, by simp, by simp⟩
      unfold builtShape
      dsimp only
      rw [if_neg h1, if_pos h2]
      simp
    · rw [if_neg h2]
      refine ⟨?_, by simp, by simp⟩
      unfold builtShape
      dsimp only
      rw [if_neg h1, if_neg h2]
      simp

lemma pushRow_update_inv (e : FilterEntry) (newItem : JsItem)
    (hg : (isDropdownInput e.input || isCheckboxInput e.input) = true)
    (hshape : builtShape e)
    (hnodup : ((e.input.items.getD []).map (fun it => it.value)).Nodup)
    (hunchecked : ∀ it ∈ e.input.items.getD [], it.checked ≠ some true)
    (hval : ∀ it ∈ e.input.items.getD [], it.value ≠ newItem.value)
    (hnc : newItem.checked ≠ some true) :
    builtEntryInv { e with input :=
      { e.input with items := some (e.input.items.getD [] ++ [newItem]) } } := by
  refine ⟨?_, ?_, ?_⟩
  · unfold builtShape at hshape ⊢
    dsimp only
    by_cases hs1 : e.style = "date" ∨ e.style = "datetime" ∨
        e.style = "time" ∨ e.style = "number"
    · exfalso
      rw [if_pos hs1] at hshape
      simp [isDropdownInput, isCheckboxInput, hshape.1] at hg
    · rw [if_neg hs1] at hshape ⊢
      by_cases hs2 : e.style = "select"
      · rw [if_pos hs2] at hshape ⊢
        exact ⟨by simp, hshape.2.1, hshape.2.2.1, hshape.2.2.2⟩
      · rw [if_neg hs2] at hshape ⊢
        exact ⟨by simp, hshape.2.1, hshape.2.2.1, hshape.2.2.2⟩
  · dsimp only
    simp only [Option.getD_some]
    rw [List.map_append, List.nodup_append]
    refine ⟨hnodup, by simp, ?_⟩
    intro x hx hx2
    obtain ⟨it, hit, hite⟩ := List.mem_map.mp hx
    simp only [List.map_cons, List.map_nil, List.mem_singleton] at hx2
    exact hval it hit (by rw [hite, hx2])
  · dsimp only
    simp only [Option.getD_some]
    intro it hit
    rcases List.mem_append.mp hit with h2 | h2
    · exact hunchecked it h2
    · simp only [List.mem_singleton] at h2
      subst h2
      exact hnc

lemma pushRow_inv (name : String) (row : Row) (idx : Nat)
    (e : FilterEntry) (h : builtEntryInv e) :
    builtEntryInv (pushRow e name row idx) := by
  obtain ⟨hshape, hnodup, hunchecked⟩ := h
  unfold pushRow
  by_cases hg : (isDropdownInput e.input || isCheckboxInput e.input) = true
  case neg =>
    rw [if_neg hg]
    exact ⟨hshape, hnodup, hunchecked⟩
  rw [if_pos hg]
  by_cases hnull : isNullish (pushNode e (rowGet row name)) = true
  case pos =>
    rw [if_pos hnull]
    exact ⟨hshape, hnodup, hunchecked⟩
  rw [if_neg hnull]
  by_cases hall : ((e.input.items.getD []).all
      fun it => decide (it.value ≠ jsToString (pushId e (rowGet row name) idx)))
      = true
  case neg =>
    rw [if_neg hall]
    exact ⟨hshape, hnodup, hunchecked⟩
  rw [if_pos hall]
  have hpv : ∀ it ∈ e.input.items.getD [],
      it.value ≠ jsToString (pushId e (rowGet row name) idx) := by
    intro it hit
    simpa using List.all_eq_true.mp hall it hit
  by_cases hcb : isCheckboxInput e.input = true
  · rw [if_pos hcb]
    exact pushRow_update_inv e _ hg hshape hnodup hunchecked
      (fun it hit => hpv it hit) (by simp)
  · rw [if_neg hcb]
    exact pushRow_update_inv e _ hg hshape hnodup hunchecked
      (fun it hit => hpv it hit) (by simp)

lemma phase2Col_inv (data : List Row) (name : String) (e : FilterEntry)
    (h : builtEntryInv e) : builtEntryInv (phase2Col data name e) := by
  unfold phase2Col
  generalize data.enum = l
  induction l generalizing e with
  | nil => exact h
  | cons p ps ih =>
    rw [List.foldl_cons]
    exact ih _ (pushRow_inv name p.2 p.1 e h)

lemma mem_phase1 {cols : List Column} {p : String × FilterEntry}
    (h : p ∈ phase1 cols) : ∃ c, p.2 = phase1Entry c := by
  unfold phase1 at h
  suffices hgen : ∀ (cs : List Column) (acc : Filters), p ∈
      cs.foldl (fun fs c => objSet fs c.name (phase1Entry c)) acc →
      p ∈ acc ∨ ∃ c, p.2 = phase1Entry c by
    rcases hgen cols [] h with h2 | h2
    · simp at h2
    · exact h2
  intro cs
  induction cs with
  | nil => intro acc hacc; exact Or.inl hacc
  | cons c cs ih =>
    intro acc hacc
    rw [List.foldl_cons] at hacc
    rcases ih _ hacc with h2 | h2
    · rcases mem_objSet h2 with h3 | h3
      · exact Or.inl h3
      · exact Or.inr ⟨c, by rw [h3]⟩
    · exact Or.inr h2

lemma createFilters_inv (data : List Row) (cols : List Column) :
    ∀ p ∈ createFilters data cols, builtEntryInv p.2 := by
  intro p hp
  unfold createFilters at hp
  obtain ⟨q, hq, hqe⟩ := List.mem_map.mp hp
  obtain ⟨c, hc⟩ := mem_phase1 hq
  rw [← hqe]
  exact phase2Col_inv data q.1 q.2 (hc ▸ phase1Entry_inv c)

lemma heapGet_updateItems (refs : List Nat) (val : String) :
    ∀ (heap : List JsItem) (i j : Nat),
    itemUp (heap.getD j dummyItem)
      ((updateItems refs val true i heap).getD j dummyItem) := by
  intro heap
  induction heap with
  | nil => intro i j; exact Or.inl rfl
  | cons it rest ih =>
    intro i j
    cases j with
    | zero =>
      show itemUp it _
      unfold updateItems
      by_cases hc : (refs.contains i && decide (it.value = val)) = true
      · rw [if_pos hc]
        exact Or.inr rfl
      · rw [if_neg hc]
        exact Or.inl rfl
    | succ j2 =>
      show itemUp (rest.getD j2 dummyItem) _
      unfold updateItems
      exact ih (i + 1) j2

lemma checkedCount_mono :
    ∀ {l1 l2 : List JsItem}, List.Forall₂ itemUp l1 l2 →
    (l1.filter (fun b => b.checked = some true)).length ≤
      (l2.filter (fun b => b.checked = some true)).length := by
  intro l1 l2 h
  induction h with
  | nil => exact Nat.le_refl 0
  | @cons a b as bs hab htail ih =>
    by_cases hc : a.checked = some true
    · have hb : b.checked = some true := by
        rcases hab with hba | hba
        · rw [hba]; simpa using hc
        · rw [hba]
      simp only [List.filter_cons, hc, hb, decide_True, if_true,
        List.length_cons]
      exact Nat.succ_le_succ ih
    · rcases hab with hba | hba
      · have hb : ¬b.checked = some true := by rw [hba]; exact hc
        simp only [List.filter_cons, hc, hb, decide_False, if_false]
        exact ih
      · have hb : b.checked = some true := by rw [hba]
        simp only [List.filter_cons, hc, hb, decide_True, if_true,
          decide_False, if_false, List.length_cons]
        exact Nat.le_succ_of_le ih

lemma forall2_map_of_pointwise {f g : Nat → JsItem}
    (h : ∀ j, itemUp (f j) (g j)) :
    ∀ refs : List Nat, List.Forall₂ itemUp (refs.map f) (refs.map g) := by
  intro refs
  induction refs with
  | nil => exact List.Forall₂.nil
  | cons r rs ih => exact List.Forall₂.cons (h r) ih

lemma denote_guards (heap : List JsItem) (i : JsInputR) :
    isCheckboxInput (denoteInput heap i) = isCheckboxInputR i ∧
    isDropdownInput (denoteInput heap i) = isDropdownInputR i ∧
    isRangeInput (denoteInput heap i) = isRangeInputR i := by
  cases hi : i.items <;>
    simp [isCheckboxInput, isCheckboxInputR, isDropdownInput,
      isDropdownInputR, isRangeInput, isRangeInputR, denoteInput, hi]

lemma countEntry_denote_mono (h1 h2 : List JsItem)
    (hrel : ∀ j, itemUp (heapGet h1 j) (heapGet h2 j)) (i : JsInputR) :
    countEntry (denoteInput h1 i) ≤ countEntry (denoteInput h2 i) := by
  unfold countEntry
  rw [(denote_guards h1 i).1, (denote_guards h1 i).2.1,
    (denote_guards h1 i).2.2, (denote_guards h2 i).1,
    (denote_guards h2 i).2.1, (denote_guards h2 i).2.2]
  by_cases hr : isRangeInputR i = true
  · rw [if_pos hr, if_pos hr]
    simp [denoteInput]
  · rw [if_neg hr, if_neg hr]
    by_cases hc2 : isCheckboxInputR i = true
    · rw [if_pos hc2, if_pos hc2]
      cases hi : i.items with
      | none => simp [denoteInput, hi]
      | some refs =>
        simp only [denoteInput, hi, Option.map_some', Option.getD_some]
        exact checkedCount_mono (forall2_map_of_pointwise hrel refs)
    · rw [if_neg hc2, if_neg hc2]
      simp [denoteInput]

lemma countFilters_denote_mono (h1 h2 : List JsItem)
    (hrel : ∀ j, itemUp (heapGet h1 j) (heapGet h2 j)) (fs : FiltersR) :
    countFilters (denoteFilters h1 fs) ≤ countFilters (denoteFilters h2 fs) := by
  unfold countFilters denoteFilters
  rw [List.map_map, List.map_map]
  apply List.sum_le_sum
  intro p _
  exact countEntry_denote_mono h1 h2 hrel p.2.input

lemma lookupF_any {α : Type} {fs : List (String × α)} {k : String} {e : α}
    (hl : lookupF fs k = some e) : fs.any (fun p => p.1 = k) = true := by
  unfold lookupF at hl
  cases hq : fs.find? (fun p => decide (p.1 = k)) with
  | none => rw [hq] at hl; simp at hl
  | some q =>
    have hq2 := List.find?_some hq
    apply List.any_eq_true.mpr
    exact ⟨q, List.mem_of_find?_eq_some hq, hq2⟩

lemma nodup_lookup_unique {α : Type} :
    ∀ (fs : List (String × α)), (fs.map Prod.fst).Nodup →
    ∀ (k : String) (e : α), lookupF fs k = some e →
    ∀ p ∈ fs, p.1 = k → p = (k, e) := by
  intro fs
  induction fs with
  | nil => intro _ k e hl; simp [lookupF] at hl
  | cons q qs ih =>
    intro hnd k e hl p hp hpk
    rw [lookupF_cons] at hl
    rw [List.map_cons, List.nodup_cons] at hnd
    by_cases hq : q.1 = k
    · rw [if_pos hq] at hl
      rcases List.mem_cons.mp hp with rfl | hp2
      · have : p.2 = e := by simpa using hl
        calc p = (p.1, p.2) := rfl
        _ = (k, e) := by rw [hpk, this]
      · exfalso
        apply hnd.1
        rw [hq, ← hpk]
        exact List.mem_map.mpr ⟨p, hp2, rfl⟩
    · rw [if_neg hq] at hl
      rcases List.mem_cons.mp hp with rfl | hp2
      · exact absurd hpk hq
      · exact ih hnd.2 k e hl p hp2 hpk

lemma inputR_eta (i : JsInputR) {l : List Nat} (hi : i.items = some l) :
    ({ i with items := some (i.items.getD []) } : JsInputR) = i := by
  cases i
  simp only at hi
  simp [hi]

lemma countEntry_zero_of_inv (e : FilterEntry) (h : builtEntryInv e) :
    countEntry e.input = 0 := by
  obtain ⟨hshape, hnodup, hunchecked⟩ := h
  unfold builtShape at hshape
  unfold countEntry
  split_ifs at hshape
  · obtain ⟨hi, hs, hmn, hmx⟩ := hshape
    simp [isRangeInput, isCheckboxInput, isDropdownInput, hi, hs, hmn, hmx]
  · obtain ⟨hi, hs, hmn, hmx⟩ := hshape
    simp [isRangeInput, isCheckboxInput, isDropdownInput, hi, hs, hmn, hmx,
      isVNull]
  · obtain ⟨hi, hs, hmn, hmx⟩ := hshape
    have hc : ((e.input.items.getD []).filter
        (fun b => b.checked = some true)).length = 0 := by
      rw [List.length_eq_zero, List.filter_eq_nil_iff]
      intro it hit
      simpa using hunchecked it hit
    simp [isRangeInput, isCheckboxInput, isDropdownInput, hi, hs, hmn, hmx, hc]

lemma countFilters_built_zero (data : List Row) (cols : List Column) :
    countFilters (buildFilterModel data cols) = 0 := by
  unfold countFilters
  apply List.sum_eq_zero
  intro x hx
  obtain ⟨p, hp, hpe⟩ := List.mem_map.mp hx
  rw [← hpe]
  exact countEntry_zero_of_inv _ (createFilters_inv _ _ p hp)

lemma countFilters_objSet_mono (h1 h2 : List JsItem)
    (hrel : ∀ j, itemUp (heapGet h1 j) (heapGet h2 j)) (fs : FiltersR)
    (hnd : (fs.map Prod.fst).Nodup) (col : String) (e newE : EntryR)
    (hl : lookupF fs col = some e)
    (hce : countEntry (denoteInput h1 e.input) ≤
      countEntry (denoteInput h2 newE.input)) :
    countFilters (denoteFilters h1 fs) ≤
      countFilters (denoteFilters h2 (objSet fs col newE)) := by
  unfold objSet
  rw [if_pos (lookupF_any hl)]
  unfold countFilters denoteFilters
  rw [List.map_map, List.map_map, List.map_map]
  apply List.sum_le_sum
  intro p hp
  show countEntry (denoteInput h1 p.2.input) ≤
    countEntry (denoteInput h2 (if p.1 = col then (col, newE) else p).2.input)
  by_cases hpc : p.1 = col
  · rw [if_pos hpc]
    have hpe : p = (col, e) := nodup_lookup_unique fs hnd col e hl p hp hpc
    rw [hpe]
    exact hce
  · rw [if_neg hpc]
    exact countEntry_denote_mono h1 h2 hrel p.2.input

lemma countEntry_setSelect_le (heap : List JsItem) (i : JsInputR)
    (sel : DValue) (hg : isDropdownInputR i = true)
    (h1 : isVNull sel = false) (h2 : isEmptyStrV sel = false) :
    countEntry (denoteInput heap i) ≤ countEntry (denoteInput heap
      { i with items := some (i.items.getD []), selected := some sel }) := by
  obtain ⟨ii, is2, im, ix, ir⟩ := i
  simp only [isDropdownInputR] at hg
  rw [Bool.and_eq_true] at hg
  rcases ii with _ | l
  · simp at hg
  rcases is2 with _ | s0
  · simp [Option.isSome] at hg
  unfold countEntry denoteInput isRangeInput isCheckboxInput isDropdownInput
  dsimp only
  by_cases hr : (im.isSome && ix.isSome) = true
  · simp [hr]
  · simp only [hr, if_false, Bool.false_eq_true]
    simp only [Option.isSome_some, Bool.not_true, Bool.and_false,
      Bool.and_true, Bool.false_eq_true, if_false, if_true, Option.getD_some,
      h1, h2, Bool.not_false, Bool.true_and]
    split_ifs <;> simp

lemma countEntry_setRange_le (heap : List JsItem) (i : JsInputR)
    (mn mx : Option Int) (hg : isRangeInputR i = true)
    (hb : (mn.isSome = true ∧ i.max = some mx) ∨
      (mx.isSome = true ∧ i.min = some mn)) :
    countEntry (denoteInput heap i) ≤ countEntry (denoteInput heap
      { i with min := some mn, max := some mx }) := by
  obtain ⟨ii, is2, im, ix, ir⟩ := i
  simp only [isRangeInputR] at hg
  rw [Bool.and_eq_true] at hg
  rcases im with _ | omn
  · simp at hg
  rcases ix with _ | omx
  · simp [Option.isSome] at hg
  simp only at hb
  unfold countEntry denoteInput isRangeInput
  dsimp only
  simp only [Option.isSome_some, Bool.and_true, if_true]
  rcases hb with ⟨hmn, hmx⟩ | ⟨hmx, hmn⟩
  · have : omx = mx := by simpa using hmx
    subst this
    rcases mn with _ | v
    · simp at hmn
    · split_ifs <;> simp_all
  · have : omn = mn := by simpa using hmn
    subst this
    rcases mx with _ | v
    · simp at hmx
    · split_ifs <;> simp_all

/-- Claim C4: `countFilters` returns 0 on a freshly built model, and
never decreases under a single constraint-adding session edit: checking
a checkbox item, setting a non-empty single-select value, or setting one
range bound (leaving the other bound unchanged). -/
theorem countFilters_fresh_zero_and_monotone :
    (∀ data cols, countFilters (buildFilterModel data cols) = 0) ∧
    (∀ s col val, (s.selected.map Prod.fst).Nodup →
      countFilters (denoteFilters s.heap s.selected) ≤
        countFilters (denoteFilters (selectCheckbox s col val true).heap
          (selectCheckbox s col val true).selected)) ∧
    (∀ cols s col sel, (s.selected.map Prod.fst).Nodup →
      isVNull sel = false → isEmptyStrV sel = false →
      countFilters (denoteFilters s.heap s.selected) ≤
        countFilters (denoteFilters (setSelect cols s col sel).heap
          (setSelect cols s col sel).selected)) ∧
    (∀ cols s col mn mx e, (s.selected.map Prod.fst).Nodup →
      lookupF s.selected col = some e →
      ((mn.isSome = true ∧ e.input.max = some mx) ∨
        (mx.isSome = true ∧ e.input.min = some mn)) →
      countFilters (denoteFilters s.heap s.selected) ≤
        countFilters (denoteFilters (setRange cols s col mn mx).heap
          (setRange cols s col mn mx).selected)) := by
  refine ⟨countFilters_built_zero, ?_, ?_, ?_⟩
  · intro s col val hnd
    cases hl : lookupF s.selected col with
    | none => simp [selectCheckbox, hl]
    | some e =>
      by_cases hg : isCheckboxInputR e.input = true
      · simp only [selectCheckbox, hl, if_pos hg]
        have hrel : ∀ j, itemUp (heapGet s.heap j)
            (heapGet (updateItems (e.input.items.getD []) val true 0 s.heap) j) :=
          fun j => heapGet_updateItems _ _ s.heap 0 j
        apply countFilters_objSet_mono _ _ hrel s.selected hnd col e _ hl
        have hi : ∃ l, e.input.items = some l := by
          rcases hii : e.input.items with _ | l
          · exfalso; rw [isCheckboxInputR, hii] at hg; simp at hg
          · exact ⟨l, rfl⟩
        obtain ⟨l, hil⟩ := hi
        show countEntry (denoteInput s.heap e.input) ≤
          countEntry (denoteInput _
            ({ e.input with items := some (e.input.items.getD []) } : JsInputR))
        rw [inputR_eta e.input hil]
        exact countEntry_denote_mono _ _ hrel e.input
      · simp [selectCheckbox, hl, hg]
  · intro cols s col sel hnd hsel1 hsel2
    cases hf : cols.find? (fun c => c.name = col) with
    | none => simp [setSelect, hf]
    | some column =>
      have hname : column.name = col := by simpa using List.find?_some hf
      cases hl : lookupF s.selected col with
      | none => simp [setSelect, hf, hl]
      | some e =>
        by_cases hg : isDropdownInputR e.input = true
        · simp only [setSelect, hf, hl, if_pos hg]
          rw [hname]
          have hrel : ∀ j, itemUp (heapGet s.heap j) (heapGet s.heap j) :=
            fun j => Or.inl rfl
          apply countFilters_objSet_mono s.heap s.heap hrel s.selected hnd
            col e _ hl
          exact countEntry_setSelect_le s.heap e.input sel hg hsel1 hsel2
        · simp [setSelect, hf, hl, hg]
  · intro cols s col mn mx e hnd hl hb
    cases hf : cols.find? (fun c => c.name = col) with
    | none => simp [setRange, hf]
    | some column =>
      have hname : column.name = col := by simpa using List.find?_some hf
      by_cases hg : isRangeInputR e.input = true
      · simp only [setRange, hf, hl, if_pos hg]
        rw [hname]
        have hrel : ∀ j, itemUp (heapGet s.heap j) (heapGet s.heap j) :=
          fun j => Or.inl rfl
        apply countFilters_objSet_mono s.heap s.heap hrel s.selected hnd
          col e _ hl
        exact countEntry_setRange_le s.heap e.input mn mx hg hb
      · simp [setRange, hf, hl, hg]

/-- Witness for the C4 theorem: the fresh count of a concrete built
model is 0, and checking the fixture session's checkbox item does not
decrease the draft's active-filter count. -/
theorem countFilters_fresh_zero_and_monotone_witness :
    countFilters (buildFilterModel [] [ageColumn]) = 0 ∧
    countFilters (denoteFilters sessionFix.heap sessionFix.selected) ≤
      countFilters (denoteFilters
        (selectCheckbox sessionFix "c" "x" true).heap
        (selectCheckbox sessionFix "c" "x" true).selected) :=
  ⟨countFilters_fresh_zero_and_monotone.1 [] [ageColumn],
   countFilters_fresh_zero_and_monotone.2.1 sessionFix "c" "x" (by decide)⟩

lemma objSet_keys_notmem {α : Type} (fs : List (String × α)) (k : String)
    (v : α) (h : k ∉ fs.map Prod.fst) :
    (objSet fs k v).map Prod.fst = fs.map Prod.fst ++ [k] := by
  have hany : fs.any (fun p => p.1 = k) = false := by
    simp only [List.any_eq_false, decide_eq_true_eq]
    intro p hp hpk
    exact h (List.mem_map.mpr ⟨p, hp, hpk⟩)
  unfold objSet
  rw [hany]
  simp

lemma phase1_keys_go : ∀ (cs : List Column) (acc : Filters),
    (acc.map Prod.fst ++ cs.map (fun c => c.name)).Nodup →
    (cs.foldl (fun fs c => objSet fs c.name (phase1Entry c)) acc).map
        Prod.fst = acc.map Prod.fst ++ cs.map (fun c => c.name) := by
  intro cs
  induction cs with
  | nil => intro acc _; simp
  | cons c cs ih =>
    intro acc hnd
    simp only [List.map_cons] at hnd ⊢
    have hnotmem : c.name ∉ acc.map Prod.fst := by
      intro hmem
      rw [List.nodup_append] at hnd
      exact hnd.2.2 hmem (List.mem_cons_self _ _)
    have hkeys := objSet_keys_notmem acc c.name (phase1Entry c) hnotmem
    rw [List.foldl_cons]
    have hnd2 : ((objSet acc c.name (phase1Entry c)).map Prod.fst ++
        cs.map (fun c => c.name)).Nodup := by
      rw [hkeys, List.append_assoc, List.singleton_append]
      exact hnd
    rw [ih _ hnd2, hkeys, List.append_assoc, List.singleton_append]

lemma createFilters_keys (data : List Row) (cols : List Column)
    (h : (cols.map (fun c => c.name)).Nodup) :
    (createFilters data cols).map Prod.fst = cols.map (fun c => c.name) := by
  unfold createFilters
  rw [List.map_map]
  have hcomp : (Prod.fst ∘ fun p : String × FilterEntry =>
      (p.1, phase2Col data p.1 p.2)) = Prod.fst := by
    funext p; rfl
  rw [hcomp]
  unfold phase1
  have := phase1_keys_go cols [] (by simpa using h)
  simpa using this

/-- Claim C7: for all datasets and schemas with pairwise-distinct column
names, `buildFilterModel` produces exactly one filter entry per column
with `canFilter` set (and none for other columns), and within each
entry's item list the stringified identities are pairwise distinct. -/
theorem createFilters_keys_and_distinct (data : List Row)
    (cols : List Column) (hnd : (cols.map (fun c => c.name)).Nodup) :
    (buildFilterModel data cols).map Prod.fst =
      (cols.filter (fun c => c.canFilter = some true)).map
        (fun c => c.name) ∧
    ∀ p ∈ buildFilterModel data cols,
      ((p.2.input.items.getD []).map (fun it => it.value)).Nodup := by
  constructor
  · unfold buildFilterModel
    apply createFilters_keys
    exact List.Nodup.sublist
      (List.Sublist.map (fun c => c.name) (List.filter_sublist cols)) hnd
  · intro p hp
    exact (createFilters_inv data _ p hp).2.1

/-- Witness for the C7 theorem: a concrete three-column schema (two
filterable, one not) over the empty dataset yields exactly the two
filterable keys, and the checkbox entry's item identities are distinct. -/
theorem createFilters_keys_and_distinct_witness :
    (buildFilterModel [] [lastNameColumn, ageColumn, { name := "x" }]).map
        Prod.fst = ["lastName", "age"] ∧
    (((buildFilterModel [] [lastNameColumn, ageColumn, { name := "x" }]).map
        Prod.fst).length = 2) :=
  ⟨(createFilters_keys_and_distinct []
      [lastNameColumn, ageColumn, { name := "x" }] (by decide)).1.trans rfl,
   by rw [(createFilters_keys_and_distinct []
      [lastNameColumn, ageColumn, { name := "x" }] (by decide)).1]; rfl⟩

lemma andB_true {a b : Bool} (h : (a && b) = true) : a = true ∧ b = true := by
  simp only [Bool.and_eq_true] at h
  exact h

lemma lookupF_objSet_self {α : Type} :
    ∀ (fs : List (String × α)) (k : String) (v : α),
    fs.any (fun p => p.1 = k) = true →
    lookupF (objSet fs k v) k = some v := by
  intro fs
  induction fs with
  | nil => intro k v h; simp at h
  | cons q qs ih =>
    intro k v h
    unfold objSet
    rw [if_pos h]
    rw [List.map_cons, lookupF_cons]
    by_cases hq : q.1 = k
    · rw [if_pos hq]
      simp
    · rw [if_neg hq, if_neg hq]
      have h2 : qs.any (fun p => p.1 = k) = true := by
        simp only [List.any_cons, Bool.or_eq_true] at h
        rcases h with h3 | h3
        · exact absurd (by simpa using h3) hq
        · exact h3
      have := ih k v h2
      unfold objSet at this
      rw [if_pos h2] at this
      exact this

lemma styleGuardOK_of_shape (e : FilterEntry) (h : builtShape e) :
    styleGuardOK e := by
  unfold builtShape at h
  unfold styleGuardOK
  split_ifs at h ⊢ <;>
    obtain ⟨h1, h2, h3, h4⟩ := h <;>
    simp [isRangeInput, isCheckboxInput, isDropdownInput, h1, h2, h3, h4]

lemma clearEntry_guards (hp : List JsItem) (e : EntryR) :
    guardsR (clearEntry hp e).2 = guardsR e := by
  unfold clearEntry
  split_ifs with h1 h2 h3
  · have hi : e.input.items.isSome = true :=
      (andB_true h1).1
    dsimp [guardsR, isCheckboxInputR, isDropdownInputR, isRangeInputR]
    simp [hi]
  · have hmn : e.input.min.isSome = true := (andB_true h2).1
    have hmx : e.input.max.isSome = true := (andB_true h2).2
    dsimp [guardsR, isCheckboxInputR, isDropdownInputR, isRangeInputR]
    simp [hmn, hmx]
  · have hi : e.input.items.isSome = true := (andB_true h3).1
    have hs : e.input.selected.isSome = true := (andB_true h3).2
    dsimp [guardsR, isCheckboxInputR, isDropdownInputR, isRangeInputR]
    simp [hi, hs]
  · rfl

lemma clearFold_guards (l : FiltersR) : ∀ st : List JsItem × FiltersR,
    ((l.foldl clearStep st).2).map (fun p => (p.1, guardsR p.2)) =
      st.2.map (fun p => (p.1, guardsR p.2)) ++
        l.map (fun p => (p.1, guardsR p.2)) := by
  induction l with
  | nil => intro st; simp
  | cons p ps ih =>
    intro st
    rw [List.foldl_cons, ih]
    simp only [clearStep, List.map_append, List.map_cons, List.map_nil]
    rw [clearEntry_guards]
    rw [List.append_assoc]
    rfl

/-- Claim C10: every filter input the system holds satisfies exactly the
shape guard its column's style selects — range for
number/date/datetime/time, dropdown for select, checkbox otherwise —
and no session edit (checkbox toggle, range bounds, dropdown selection,
clear) ever changes which guard any entry's input satisfies. -/
theorem filter_input_guard_invariant :
    (∀ data cols, ∀ p ∈ createFilters data cols, styleGuardOK p.2) ∧
    (∀ s col val chk k,
      (lookupF (selectCheckbox s col val chk).selected k).map guardsR =
        (lookupF s.selected k).map guardsR) ∧
    (∀ cols s col mn mx k,
      (lookupF (setRange cols s col mn mx).selected k).map guardsR =
        (lookupF s.selected k).map guardsR) ∧
    (∀ cols s col sel k,
      (lookupF (setSelect cols s col sel).selected k).map guardsR =
        (lookupF s.selected k).map guardsR) ∧
    (∀ s, (clearFilters s).selected.map (fun p => (p.1, guardsR p.2)) =
      s.selected.map (fun p => (p.1, guardsR p.2))) := by
  refine ⟨?_, ?_, ?_, ?_, ?_⟩
  · intro data cols p hp
    exact styleGuardOK_of_shape p.2 (createFilters_inv data cols p hp).1
  · intro s col val chk k
    cases hl : lookupF s.selected col with
    | none => simp [selectCheckbox, hl]
    | some e =>
      by_cases hg : isCheckboxInputR e.input = true
      · simp only [selectCheckbox, hl, if_pos hg]
        by_cases hk : k = col
        · subst hk
          rw [lookupF_objSet_self s.selected k _ (lookupF_any hl), hl]
          obtain ⟨l, hil⟩ := Option.isSome_iff_exists.mp
            (andB_true hg).1
          simp only [Option.map_some']
          have := inputR_eta e.input hil
          show some (guardsR { e with input :=
            { e.input with items := some (e.input.items.getD []) } }) =
            some (guardsR e)
          rw [this]
        · rw [lookupF_objSet_ne _ _ _ _ hk]
      · simp [selectCheckbox, hl, hg]
  · intro cols s col mn mx k
    cases hf : cols.find? (fun c => c.name = col) with
    | none => simp [setRange, hf]
    | some column =>
      have hname : column.name = col := by simpa using List.find?_some hf
      cases hl : lookupF s.selected col with
      | none => simp [setRange, hf, hl]
      | some e =>
        by_cases hg : isRangeInputR e.input = true
        · simp only [setRange, hf, hl, if_pos hg]
          rw [hname]
          by_cases hk : k = col
          · subst hk
            rw [lookupF_objSet_self s.selected k _ (lookupF_any hl), hl]
            simp only [Option.map_some']
            have hmn : e.input.min.isSome = true := (andB_true hg).1
            have hmx : e.input.max.isSome = true := (andB_true hg).2
            dsimp [guardsR, isCheckboxInputR, isDropdownInputR, isRangeInputR]
            simp [hmn, hmx]
          · rw [lookupF_objSet_ne _ _ _ _ hk]
        · simp [setRange, hf, hl, hg]
  · intro cols s col sel k
    cases hf : cols.find? (fun c => c.name = col) with
    | none => simp [setSelect, hf]
    | some column =>
      have hname : column.name = col := by simpa using List.find?_some hf
      cases hl : lookupF s.selected col with
      | none => simp [setSelect, hf, hl]
      | some e =>
        by_cases hg : isDropdownInputR e.input = true
        · simp only [setSelect, hf, hl, if_pos hg]
          rw [hname]
          by_cases hk : k = col
          · subst hk
            rw [lookupF_objSet_self s.selected k _ (lookupF_any hl), hl]
            simp only [Option.map_some']
            have hi : e.input.items.isSome = true := (andB_true hg).1
            have hs : e.input.selected.isSome = true :=
              (andB_true hg).2
            dsimp [guardsR, isCheckboxInputR, isDropdownInputR, isRangeInputR]
            simp [hi, hs]
          · rw [lookupF_objSet_ne _ _ _ _ hk]
        · simp [setSelect, hf, hl, hg]
  · intro s
    have := clearFold_guards s.selected (s.heap, [])
    simpa [clearFilters] using this

/-- Witness for the C10 theorem: the builder entry of the numeric `age`
column satisfies exactly the range guard, and clearing the fixture
session changes no entry's guard. -/
theorem filter_input_guard_invariant_witness :
    styleGuardOK rangeAgeEmptyEntry ∧
    (clearFilters sessionFix).selected.map (fun p => (p.1, guardsR p.2)) =
      sessionFix.selected.map (fun p => (p.1, guardsR p.2)) :=
  ⟨filter_input_guard_invariant.1 [] [ageColumn]
      ("age", rangeAgeEmptyEntry) (List.mem_cons_self _ _),
   filter_input_guard_invariant.2.2.2.2 sessionFix⟩

/-- Witness for the C3 theorem at the concrete numeric column and
records. -/
theorem sortData_consistent_order_witness :
    Int.sign (sortData pdZero [ageColumn] "age" "desc"
        (0, [("age", DValue.vnum 1)]) (1, [("age", DValue.vnum 2)])) =
      -Int.sign (sortData pdZero [ageColumn] "age" "desc"
        (1, [("age", DValue.vnum 2)]) (0, [("age", DValue.vnum 1)])) ∧
    sortData pdZero [ageColumn] "age" "desc"
        (0, [("age", DValue.vnum 1)]) (0, [("age", DValue.vnum 1)]) = 0 :=
  ⟨(sortData_consistent_order pdZero [ageColumn] "age" "desc" ageColumn rfl
      (by decide) (by decide) (by decide) rfl).1
      (0, [("age", DValue.vnum 1)]) (1, [("age", DValue.vnum 2)]),
   (sortData_consistent_order pdZero [ageColumn] "age" "desc" ageColumn rfl
      (by decide) (by decide) (by decide) rfl).2
      (0, [("age", DValue.vnum 1)])⟩

end DT
